import Mathlib

/-!
Verification of the RushFiles storage provider
(src/waterbutler/providers/rushfiles/provider.py).

Each definition below is a shallow embedding of the corresponding Python
function; remote HTTP responses are passed in as explicit oracle data, and
the sequence of remote requests an operation issues is returned as an
explicit trace list.
-/

namespace RushFiles

/-- Python truthiness of an optional string (`if x:` is false for both
`None` and the empty string). -/
def pyTruthy : Option String → Bool
  | none => false
  | some s => !s.isEmpty

/-- One entry of a `virtualfiles/{id}/children` listing, keeping the
fields the provider reads: `PublicName`, `InternalName`, `IsFile`. -/
structure Entry where
  publicName : String
  internalName : String
  isFile : Bool
deriving DecidableEq, Repr

/-- Embeds `_search_inter_id` (provider.py:496-502): scan the listing in
order for the first entry whose `PublicName` equals the child name,
returning the entry together with its index, or `none` (Python `(None,
None)`). -/
def searchInterId : List Entry → String → Option (Entry × Nat)
  | [], _ => none
  | e :: rest, child =>
    if child = e.publicName then some (e, 0)
    else (searchInterId rest child).map (fun p => (p.1, p.2 + 1))

/-- The error taxonomy of the provider: each constructor corresponds to
one `waterbutler.core.exceptions` class raised by provider.py. -/
inductive RFError where
  | notFound (context : String)
  | metadataError (context : String)
  | downloadError (msg : String) (code : Nat)
  | uploadError
  | deleteError (msg : String) (code : Nat)
  | intraMoveError
  | intraCopyError
  | createFolderError
  | revisionsError
deriving DecidableEq, Repr

/-! ## Chunked upload loop (`_upload_file`, provider.py:288-310) -/

/-- Embeds the `while position < stream.size` loop of `_upload_file`
(provider.py:292-307): from the current `position`, the next request
covers bytes `position` to `min(position + CHUNK_SIZE, size) - 1`
(the `Content-Range` header built on line 300) and the loop resumes at
that upper bound.  `fuel` bounds the iteration count so the function is
total; `uploadFileChunks` supplies enough fuel for any positive chunk
size. -/
def chunkLoop (C S : Nat) : Nat → Nat → List (Nat × Nat)
  | 0, _ => []
  | fuel + 1, position =>
    if position < S then
      (position, min (position + C) S - 1) :: chunkLoop C S fuel (min (position + C) S)
    else []

/-- The byte ranges of the chunk requests `_upload_file` issues for a
stream of declared size `S` with chunk-size constant `C`: the loop of
provider.py:292-307 started at `position = 0`. -/
def uploadFileChunks (C S : Nat) : List (Nat × Nat) :=
  chunkLoop C S S 0

theorem chunkLoop_eq (C S : Nat) (hC : 0 < C) :
    ∀ (fuel position : Nat), S - position ≤ fuel →
      chunkLoop C S fuel position =
        (List.range ((S - position + C - 1) / C)).map
          (fun k => (position + k * C, min (position + (k + 1) * C) S - 1)) := by
  intro fuel
  induction fuel with
  | zero =>
    intro position h
    have h0 : (S - position + C - 1) / C = 0 := by
      have hz : S - position = 0 := by omega
      rw [hz]
      exact Nat.div_eq_of_lt (by omega)
    rw [h0]
    simp [chunkLoop]
  | succ n ih =>
    intro position h
    by_cases hp : position < S
    · rw [chunkLoop, if_pos hp]
      by_cases hfit : position + C ≤ S
      · have hmin : min (position + C) S = position + C := by omega
        rw [hmin, ih (position + C) (by omega)]
        have hcount : (S - position + C - 1) / C = (S - (position + C) + C - 1) / C + 1 := by
          have h1 : S - position + C - 1 = (S - (position + C) + C - 1) + C := by omega
          rw [h1, Nat.add_div_right _ hC]
        rw [hcount, List.range_succ_eq_map, List.map_cons, List.map_map]
        congr 1
        · simp only [Prod.mk.injEq]
          constructor
          · omega
          · omega
        · apply List.map_congr_left
          intro k hk
          simp only [Function.comp_apply, Nat.succ_eq_add_one]
          have e1 : position + C + k * C = position + (k + 1) * C := by ring
          have e2 : position + C + (k + 1) * C = position + (k + 1 + 1) * C := by ring
          rw [e1, e2]
      · have hmin : min (position + C) S = S := by omega
        rw [hmin, ih S (by omega)]
        have h00 : (S - S + C - 1) / C = 0 := by
          have : S - S = 0 := by omega
          rw [this]
          exact Nat.div_eq_of_lt (by omega)
        have hone : (S - position + C - 1) / C = 1 := by
          apply Nat.div_eq_of_lt_le
          · omega
          · omega
        rw [h00, hone]
        have hr1 : List.range 1 = [0] := rfl
        rw [hr1]
        simp only [List.range_zero, List.map_nil, List.map_cons]
        congr 1
        simp only [Prod.mk.injEq]
        constructor
        · omega
        · omega
    · rw [chunkLoop, if_neg hp]
      have h0 : (S - position + C - 1) / C = 0 := by
        have hz : S - position = 0 := by omega
        rw [hz]
        exact Nat.div_eq_of_lt (by omega)
      rw [h0]
      simp

theorem uploadFileChunks_eq (C S : Nat) (hC : 0 < C) :
    uploadFileChunks C S =
      (List.range ((S + C - 1) / C)).map
        (fun k => (k * C, min ((k + 1) * C) S - 1)) := by
  rw [uploadFileChunks, chunkLoop_eq C S hC S 0 (by omega)]
  simp

theorem uploadFileChunks_getElem (C S k : Nat) (hC : 0 < C) :
    (uploadFileChunks C S)[k]? =
      if k < (S + C - 1) / C then some (k * C, min ((k + 1) * C) S - 1) else none := by
  rw [uploadFileChunks_eq C S hC]
  by_cases hk : k < (S + C - 1) / C
  · rw [if_pos hk]
    simp [List.getElem?_map, List.getElem?_range, hk]
  · rw [if_neg hk]
    apply List.getElem?_eq_none
    simp
    omega

theorem ceil_mul_ge (C S : Nat) (hC : 0 < C) : S ≤ ((S + C - 1) / C) * C := by
  have h1 := Nat.div_add_mod (S + C - 1) C
  have h2 : (S + C - 1) % C < C := Nat.mod_lt _ hC
  have h3 : ((S + C - 1) / C) * C = C * ((S + C - 1) / C) := Nat.mul_comm _ _
  omega

theorem lt_ceil_mul (C S k : Nat) (hC : 0 < C) (hS : 0 < S)
    (hk : k < (S + C - 1) / C) : k * C < S := by
  have ha := Nat.div_mul_le_self (S + C - 1) C
  have hb : k * C ≤ ((S + C - 1) / C - 1) * C := Nat.mul_le_mul_right C (by omega)
  have hc : ((S + C - 1) / C - 1) * C = (S + C - 1) / C * C - C := Nat.sub_one_mul _ _
  omega

theorem ceil_pos (C S : Nat) (hC : 0 < C) (hS : 0 < S) : 0 < (S + C - 1) / C :=
  (Nat.one_le_div_iff hC).mpr (by omega)

/-- Claim C1: for a stream of declared size `S > 0` and chunk-size constant
`C`, the loop of `_upload_file` issues exactly `ceil(S/C)` chunk requests;
the `k`-th request's byte range is `[k*C, min((k+1)*C, S) - 1]` (so the
ranges are `[0, C-1]`, `[C, 2C-1]`, ...); every range is nonempty; each
range starts right after the previous one ends (strictly increasing,
non-overlapping, gap-free); together the ranges cover exactly `[0, S)`;
the first range starts at byte `0`; and the final range ends at byte
`S - 1`. -/
theorem upload_chunk_plan (C S : Nat) (hC : 0 < C) (hS : 0 < S) :
    (uploadFileChunks C S).length = (S + C - 1) / C ∧
    (∀ k : Nat, k < (S + C - 1) / C →
      (uploadFileChunks C S)[k]? = some (k * C, min ((k + 1) * C) S - 1)) ∧
    (∀ k s e : Nat, (uploadFileChunks C S)[k]? = some (s, e) → s ≤ e) ∧
    (∀ k s e s2 e2 : Nat, (uploadFileChunks C S)[k]? = some (s, e) →
      (uploadFileChunks C S)[k + 1]? = some (s2, e2) → s2 = e + 1) ∧
    (∀ i : Nat, i < S ↔
      ∃ k s e : Nat, (uploadFileChunks C S)[k]? = some (s, e) ∧ s ≤ i ∧ i ≤ e) ∧
    (uploadFileChunks C S).head?.map Prod.fst = some 0 ∧
    (uploadFileChunks C S).getLast?.map Prod.snd = some (S - 1) := by
  have hn1 : 0 < (S + C - 1) / C := ceil_pos C S hC hS
  refine ⟨?_, ?_, ?_, ?_, ?_, ?_, ?_⟩
  · rw [uploadFileChunks_eq C S hC]
    simp
  · intro k hk
    rw [uploadFileChunks_getElem C S k hC, if_pos hk]
  · intro k s e hel
    rw [uploadFileChunks_getElem C S k hC] at hel
    by_cases hk : k < (S + C - 1) / C
    · rw [if_pos hk] at hel
      have hse : s = k * C ∧ e = min ((k + 1) * C) S - 1 := by
        have := Option.some.inj hel
        exact ⟨congrArg Prod.fst this.symm, congrArg Prod.snd this.symm⟩
      have hlt : k * C < S := lt_ceil_mul C S k hC hS hk
      have hlt2 : k * C < (k + 1) * C := by
        have : (k + 1) * C = k * C + C := by ring
        omega
      omega
    · rw [if_neg hk] at hel
      exact absurd hel (by simp)
  · intro k s e s2 e2 h1 h2
    rw [uploadFileChunks_getElem C S k hC] at h1
    rw [uploadFileChunks_getElem C S (k + 1) hC] at h2
    by_cases hk1 : k + 1 < (S + C - 1) / C
    · have hk : k < (S + C - 1) / C := by omega
      rw [if_pos hk] at h1
      rw [if_pos hk1] at h2
      have he : e = min ((k + 1) * C) S - 1 := by
        have := Option.some.inj h1
        exact congrArg Prod.snd this.symm
      have hs2 : s2 = (k + 1) * C := by
        have := Option.some.inj h2
        exact congrArg Prod.fst this.symm
      have hlt : (k + 1) * C < S := lt_ceil_mul C S (k + 1) hC hS hk1
      have hpos : 0 < (k + 1) * C := Nat.mul_pos (by omega) hC
      omega
    · rw [if_neg hk1] at h2
      exact absurd h2 (by simp)
  · intro i
    constructor
    · intro hi
      refine ⟨i / C, i / C * C, min ((i / C + 1) * C) S - 1, ?_, ?_, ?_⟩
      · rw [uploadFileChunks_getElem C S (i / C) hC]
        have hsplit : S + C - 1 = (S - 1) + C := by omega
        have hnn : (S + C - 1) / C = (S - 1) / C + 1 := by
          rw [hsplit, Nat.add_div_right _ hC]
        have hle : i / C ≤ (S - 1) / C := Nat.div_le_div_right (by omega)
        rw [if_pos (by omega)]
      · exact Nat.div_mul_le_self i C
      · have hdm := Nat.div_add_mod i C
        have hmlt : i % C < C := Nat.mod_lt _ hC
        have he : (i / C + 1) * C = C * (i / C) + C := by ring
        omega
    · rintro ⟨k, s, e, hel, hsi, hie⟩
      rw [uploadFileChunks_getElem C S k hC] at hel
      by_cases hk : k < (S + C - 1) / C
      · rw [if_pos hk] at hel
        have he : e = min ((k + 1) * C) S - 1 := by
          have := Option.some.inj hel
          exact congrArg Prod.snd this.symm
        omega
      · rw [if_neg hk] at hel
        exact absurd hel (by simp)
  · rw [List.head?_eq_getElem?, uploadFileChunks_getElem C S 0 hC, if_pos hn1]
    simp
  · rw [uploadFileChunks_eq C S hC]
    have hsplit : (S + C - 1) / C = ((S + C - 1) / C - 1) + 1 := by omega
    rw [hsplit, List.range_succ, List.map_append, List.map_cons, List.map_nil,
      List.getLast?_concat]
    have hml : S ≤ ((S + C - 1) / C - 1 + 1) * C := by
      rw [← hsplit]
      exact ceil_mul_ge C S hC
    have hmin : min (((S + C - 1) / C - 1 + 1) * C) S = S := by omega
    simp [hmin]

/-- Concrete instantiation of `upload_chunk_plan` at chunk size 4 and
stream size 10: three chunks, the last ending at byte 9. -/
theorem upload_chunk_plan_witness :
    (uploadFileChunks 4 10).length = (10 + 4 - 1) / 4 ∧
    (uploadFileChunks 4 10).getLast?.map Prod.snd = some (10 - 1) :=
  ⟨(upload_chunk_plan 4 10 (by decide) (by decide)).1,
   (upload_chunk_plan 4 10 (by decide) (by decide)).2.2.2.2.2.2⟩

/-! ## Path resolution (`validate_path` provider.py:63-92,
`revalidate_path` provider.py:94-113) -/

/-- A children-listing oracle: the decoded body of
`GET virtualfiles/{id}/children` for each identifier, `none` standing
for a 404 response. -/
def Listing : Type := String → Option (List Entry)

/-- The resolved path built by `validate_path`: the accumulated
`inter_id_list` and the folder flag of the `RushFilesPath`
constructor. -/
structure RPath where
  ids : List (Option String)
  folder : Bool
deriving DecidableEq, Repr

/-- Embeds the `for i, child in enumerate(children_path_list)` loop of
`validate_path` (provider.py:72-87) together with the kind check done
after the loop (lines 89-90).  Each step lists the children of the
current identifier (a 404 raises not-found), looks the segment up with
`_search_inter_id` and appends the match to `inter_id_list`.  A falsy
match (`None` or an empty `InternalName`) returns the unresolved chain
when the segment is the last one and raises not-found otherwise; a
truthy final match whose `IsFile` equals the trailing-slash expectation
`is_folder` raises not-found, and otherwise resolution succeeds.  The
loop is never entered with an empty segment list, so that case maps to
an (unreachable) metadata error. -/
def validateLoop (remote : Listing) (pathStr : String) (isFolder : Bool) :
    String → List (Option String) → List String → Except RFError RPath
  | _, _, [] => .error (.metadataError pathStr)
  | cur, acc, child :: rest =>
    match remote cur with
    | none => .error (.notFound pathStr)
    | some entries =>
      match searchInterId entries child with
      | none =>
        if rest.isEmpty then .ok ⟨acc ++ [none], isFolder⟩
        else .error (.notFound pathStr)
      | some (e, _) =>
        if e.internalName.isEmpty then
          if rest.isEmpty then .ok ⟨acc ++ [some e.internalName], isFolder⟩
          else .error (.notFound pathStr)
        else if rest.isEmpty then
          if e.isFile == isFolder then .error (.notFound pathStr)
          else .ok ⟨acc ++ [some e.internalName], isFolder⟩
        else validateLoop remote pathStr isFolder e.internalName (acc ++ [some e.internalName]) rest

/-- Embeds `validate_path` (provider.py:63-92), taking the path already
split into its URL-decoded segments (`children_path_list`, line 68) and
the trailing-slash flag (`is_folder`, line 67).  The empty segment list
is the root path `/` (line 64), which resolves to the share root
identifier; otherwise the walk starts from the share root with
`inter_id_list = [share id]` (lines 69-70). -/
def validate_path (remote : Listing) (shareId : String) (pathStr : String)
    (segments : List String) (isFolder : Bool) : Except RFError RPath :=
  if segments.isEmpty then .ok ⟨[some shareId], true⟩
  else validateLoop remote pathStr isFolder shareId [some shareId] segments

/-- The result of `revalidate_path`:
`base.child(name, _id=child_id, folder=folder)`. -/
structure ChildPath where
  name : String
  identifier : Option String
  folder : Option Bool
deriving DecidableEq, Repr

/-- Embeds `revalidate_path` (provider.py:94-113): list the children of
the base identifier (404 raises not-found), look the name up with
`_search_inter_id`; when a child was found (`child_id is not None`) and
its `IsFile` equals the `folder` expectation, raise not-found; otherwise
return the child path carrying the found identifier (or `none`). -/
def revalidate_path (remote : Listing) (baseIdent : String) (name : String)
    (folder : Option Bool) : Except RFError ChildPath :=
  match remote baseIdent with
  | none => .error (.notFound name)
  | some entries =>
    match searchInterId entries name with
    | none => .ok ⟨name, none, folder⟩
    | some (e, _) =>
      if folder = some e.isFile then .error (.notFound name)
      else .ok ⟨name, some e.internalName, folder⟩

/-- The identifier the resolver's walk reaches after successfully
matching every segment of `pre` starting from `cur` (each match found
with a non-empty `InternalName`); used to phrase hypotheses about the
resolver's state when it reaches a later segment. -/
def resolveChain (remote : Listing) : String → List String → Option String
  | cur, [] => some cur
  | cur, s :: rest =>
    match remote cur with
    | none => none
    | some entries =>
      match searchInterId entries s with
      | none => none
      | some (e, _) =>
        if e.internalName.isEmpty then none
        else resolveChain remote e.internalName rest

theorem validateLoop_missing (remote : Listing) (pathStr : String) (isFolder : Bool) :
    ∀ (pre : List String) (cur : String) (acc : List (Option String)) (p : String)
      (entries : List Entry) (m : String) (post : List String),
      resolveChain remote cur pre = some p →
      remote p = some entries →
      searchInterId entries m = none →
      (post ≠ [] →
        validateLoop remote pathStr isFolder cur acc (pre ++ m :: post) =
          .error (.notFound pathStr)) ∧
      (∃ mids : List String, (∀ x ∈ mids, x.isEmpty = false) ∧
        mids.length = pre.length ∧
        validateLoop remote pathStr isFolder cur acc (pre ++ [m]) =
          .ok ⟨acc ++ (mids.map some ++ [none]), isFolder⟩) := by
  intro pre
  induction pre with
  | nil =>
    intro cur acc p entries m post hw hl hm
    have hcur : cur = p := by
      simp [resolveChain] at hw
      exact hw
    subst hcur
    constructor
    · intro hpost
      have hre : post.isEmpty = false := by
        cases post with
        | nil => exact absurd rfl hpost
        | cons a b => rfl
      rw [List.nil_append]
      simp only [validateLoop, hl, hm, hre, Bool.false_eq_true, if_false]
    · refine ⟨[], by simp, by simp, ?_⟩
      rw [List.nil_append]
      simp only [validateLoop, hl, hm, List.isEmpty_nil, if_true]
      simp
  | cons s pre2 ih =>
    intro cur acc p entries m post hw hl hm
    rw [resolveChain] at hw
    cases hrc : remote cur with
    | none => simp only [hrc] at hw; exact absurd hw (by simp)
    | some es =>
      simp only [hrc] at hw
      cases hse : searchInterId es s with
      | none => simp only [hse] at hw; exact absurd hw (by simp)
      | some ei =>
        obtain ⟨e1, i1⟩ := ei
        simp only [hse] at hw
        cases hne : e1.internalName.isEmpty with
        | true => rw [hne] at hw; simp at hw
        | false =>
          rw [hne] at hw
          simp only [Bool.false_eq_true, if_false] at hw
          have hrec := ih e1.internalName (acc ++ [some e1.internalName]) p entries m post hw hl hm
          have hstep : ∀ (rest2 : List String), rest2 ≠ [] →
              validateLoop remote pathStr isFolder cur acc (s :: rest2) =
                validateLoop remote pathStr isFolder e1.internalName
                  (acc ++ [some e1.internalName]) rest2 := by
            intro rest2 hr2
            have hre : rest2.isEmpty = false := by
              cases rest2 with
              | nil => exact absurd rfl hr2
              | cons a b => rfl
            simp only [validateLoop, hrc, hse, hne, hre, Bool.false_eq_true, if_false]
          constructor
          · intro hpost
            have h1 : (pre2 ++ m :: post) ≠ [] := by simp
            rw [List.cons_append, hstep (pre2 ++ m :: post) h1]
            exact hrec.1 hpost
          · obtain ⟨mids, hmid1, hmid2, hmid3⟩ := hrec.2
            refine ⟨e1.internalName :: mids, ?_, by simp [hmid2], ?_⟩
            · intro x hx
              cases hx with
              | head => exact hne
              | tail _ hx2 => exact hmid1 x hx2
            · have h1 : (pre2 ++ [m]) ≠ [] := by simp
              rw [List.cons_append, hstep (pre2 ++ [m]) h1, hmid3]
              simp

/-- Claim C5: when a non-final segment `m` of a multi-segment path has no
matching entry in its parent's children listing, `validate_path` fails
with not-found for the whole path; when only the final segment has no
match, it returns a resolved path whose terminal identifier is `none`
while every earlier position of the identifier chain carries a (truthy)
identifier. -/
theorem validate_path_missing_segment (remote : Listing) (shareId pathStr : String)
    (pre : List String) (m : String) (post : List String) (isFolder : Bool)
    (p : String) (entries : List Entry)
    (hw : resolveChain remote shareId pre = some p)
    (hl : remote p = some entries)
    (hm : searchInterId entries m = none) :
    (post ≠ [] →
      validate_path remote shareId pathStr (pre ++ m :: post) isFolder =
        .error (.notFound pathStr)) ∧
    (∃ mids : List String, (∀ x ∈ mids, x.isEmpty = false) ∧
      mids.length = pre.length ∧
      validate_path remote shareId pathStr (pre ++ [m]) isFolder =
        .ok ⟨some shareId :: (mids.map some ++ [none]), isFolder⟩) := by
  have h := validateLoop_missing remote pathStr isFolder pre shareId [some shareId]
    p entries m post hw hl hm
  constructor
  · intro hpost
    rw [validate_path, if_neg (by simp)]
    exact h.1 hpost
  · obtain ⟨mids, h1, h2, h3⟩ := h.2
    refine ⟨mids, h1, h2, ?_⟩
    rw [validate_path, if_neg (by simp), h3]
    simp

/-- Concrete instantiation of `validate_path_missing_segment` on a
two-level listing: `/a/b/c` with `b` absent under `a` is not-found, and
`/a/b` resolves with identifier chain `[share, idA, none]`. -/
theorem validate_path_missing_segment_witness :
    (validate_path
        (fun s => if s = "r" then some [⟨"a", "ia", false⟩]
                  else if s = "ia" then some [] else none)
        "r" "/a/b/c" ["a", "b", "c"] false =
      .error (.notFound "/a/b/c")) ∧
    (∃ mids : List String, (∀ x ∈ mids, x.isEmpty = false) ∧ mids.length = 1 ∧
      validate_path
          (fun s => if s = "r" then some [⟨"a", "ia", false⟩]
                    else if s = "ia" then some [] else none)
          "r" "/a/b" ["a", "b"] false =
        .ok ⟨some "r" :: (mids.map some ++ [none]), false⟩) := by
  have h := validate_path_missing_segment
    (fun s => if s = "r" then some [⟨"a", "ia", false⟩]
              else if s = "ia" then some [] else none)
    "r" "/a/b/c" ["a"] "b" ["c"] false "ia" [] (by decide) (by decide) (by decide)
  have h2 := validate_path_missing_segment
    (fun s => if s = "r" then some [⟨"a", "ia", false⟩]
              else if s = "ia" then some [] else none)
    "r" "/a/b" ["a"] "b" [] false "ia" [] (by decide) (by decide) (by decide)
  exact ⟨h.1 (by simp), by simpa using h2.2⟩

theorem validateLoop_kind_mismatch (remote : Listing) (pathStr : String) (isFolder : Bool) :
    ∀ (pre : List String) (cur : String) (acc : List (Option String)) (p : String)
      (entries : List Entry) (m : String) (e : Entry) (i : Nat),
      resolveChain remote cur pre = some p →
      remote p = some entries →
      searchInterId entries m = some (e, i) →
      e.internalName.isEmpty = false →
      e.isFile = isFolder →
      validateLoop remote pathStr isFolder cur acc (pre ++ [m]) =
        .error (.notFound pathStr) := by
  intro pre
  induction pre with
  | nil =>
    intro cur acc p entries m e i hw hl hm hne hkind
    have hcur : cur = p := by
      simp [resolveChain] at hw
      exact hw
    subst hcur
    rw [List.nil_append]
    simp only [validateLoop, hl, hm, hne, Bool.false_eq_true, if_false,
      List.isEmpty_nil, if_true]
    rw [hkind]
    simp
  | cons s pre2 ih =>
    intro cur acc p entries m e i hw hl hm hne hkind
    rw [resolveChain] at hw
    cases hrc : remote cur with
    | none => simp only [hrc] at hw; exact absurd hw (by simp)
    | some es =>
      simp only [hrc] at hw
      cases hse : searchInterId es s with
      | none => simp only [hse] at hw; exact absurd hw (by simp)
      | some ei =>
        obtain ⟨e1, i1⟩ := ei
        simp only [hse] at hw
        cases hne1 : e1.internalName.isEmpty with
        | true => rw [hne1] at hw; simp at hw
        | false =>
          rw [hne1] at hw
          simp only [Bool.false_eq_true, if_false] at hw
          have hre : (pre2 ++ [m]).isEmpty = false := by simp
          rw [List.cons_append]
          simp only [validateLoop, hrc, hse, hne1, hre, Bool.false_eq_true, if_false]
          exact ih e1.internalName (acc ++ [some e1.internalName]) p entries m e i
            hw hl hm hne hkind

/-- Claim C4: when the final segment of a path matches a listing entry but
the entry's file/folder kind disagrees with the caller's expectation
(`IsFile == is_folder` in `validate_path`, `IsFile == folder` in
`revalidate_path`), resolution raises a not-found error — not a type
error — and the rule is the same in the full-path resolver and in the
single-child re-resolution entry point. -/
theorem kind_mismatch_not_found (remote : Listing) (shareId pathStr : String)
    (pre : List String) (m : String) (isFolder : Bool) (p : String)
    (entries : List Entry) (e : Entry) (i : Nat)
    (hw : resolveChain remote shareId pre = some p)
    (hl : remote p = some entries)
    (hm : searchInterId entries m = some (e, i))
    (hne : e.internalName.isEmpty = false)
    (hkind : e.isFile = isFolder) :
    validate_path remote shareId pathStr (pre ++ [m]) isFolder =
      .error (.notFound pathStr) ∧
    (∀ (baseIdent nm : String) (es : List Entry) (e2 : Entry) (i2 : Nat),
      remote baseIdent = some es → searchInterId es nm = some (e2, i2) →
      e2.isFile = isFolder →
      revalidate_path remote baseIdent nm (some isFolder) =
        .error (.notFound nm)) := by
  constructor
  · rw [validate_path, if_neg (by simp)]
    exact validateLoop_kind_mismatch remote pathStr isFolder pre shareId [some shareId]
      p entries m e i hw hl hm hne hkind
  · intro baseIdent nm es e2 i2 h1 h2 h3
    simp only [revalidate_path, h1, h2, h3]
    simp

/-- Concrete instantiation of `kind_mismatch_not_found`: the share root
contains a file named `a`, and both resolving `/a/` with a folder
expectation and re-resolving child `a` with `folder=True` yield
not-found. -/
theorem kind_mismatch_not_found_witness :
    (validate_path (fun s => if s = "r" then some [⟨"a", "ia", true⟩] else none)
        "r" "/a/" ["a"] true = .error (.notFound "/a/")) ∧
    (revalidate_path (fun s => if s = "r" then some [⟨"a", "ia", true⟩] else none)
        "r" "a" (some true) = .error (.notFound "a")) := by
  have h := kind_mismatch_not_found
    (fun s => if s = "r" then some [⟨"a", "ia", true⟩] else none)
    "r" "/a/" [] "a" true "r" [⟨"a", "ia", true⟩] ⟨"a", "ia", true⟩ 0
    (by decide) (by decide) (by decide) (by decide) (by decide)
  exact ⟨by simpa using h.1,
    h.2 "r" "a" [⟨"a", "ia", true⟩] ⟨"a", "ia", true⟩ 0 (by decide) (by decide) (by decide)⟩

/-! ## Intra-provider move and copy (`intra_move` provider.py:129-175,
`intra_copy` provider.py:177-207) -/

/-- The slice of a `WaterButlerPath` that `intra_move` / `intra_copy`
read: terminal name, terminal identifier, parent identifier, and whether
the path denotes a folder. -/
structure MvPath where
  name : String
  identifier : Option String
  parentId : Option String
  isFolder : Bool
deriving DecidableEq, Repr

/-- The fields of the raw source metadata (`_file_metadata(src_path,
raw=True)`) that `intra_move` copies into the move request body. -/
structure RawFileMeta where
  endOfFile : Nat
  creationTime : String
  lastAccessTime : String
  lastWriteTime : String
  attributes : Nat
deriving DecidableEq, Repr

/-- The `RfVirtualFile` part of the move request body built on
provider.py:137-153 (the client-generated `TransmitId`, the constant
`ClientJournalEventType.MOVE` tag and `DeviceId` are omitted as they do
not vary). -/
structure MoveBody where
  internalName : Option String
  shareId : String
  parrentId : Option String
  endOfFile : Nat
  publicName : String
  creationTime : String
  lastAccessTime : String
  lastWriteTime : String
  attributes : Nat
deriving DecidableEq, Repr

/-- The remote requests `intra_move` / `intra_copy` issue, in order. -/
inductive MEvent where
  | deleteEntity (ident : Option String)
  | fetchSrcMeta (ident : Option String)
  | movePut (urlIdent : Option String) (body : MoveBody)
  | listChildren (ident : Option String)
  | clonePost (srcIdent destParentId : Option String) (destShareId : String)
deriving DecidableEq, Repr

/-- The `RfVirtualFile` record decoded from a mutation response
(`resp['Data']['ClientJournalEvent']['RfVirtualFile']`), keeping the
fields the provider reads. -/
structure RespFile where
  internalName : String
  publicName : String
deriving DecidableEq, Repr

/-- What `intra_move` returns and does: its request trace, the decoded
entity record, the destination path after the in-place mutation of
provider.py:167-168, and the `created` flag. -/
structure MoveOutcome where
  events : List MEvent
  result : RespFile
  destAfter : MvPath
  created : Bool
deriving DecidableEq, Repr

/-- Embeds `intra_move` (provider.py:129-175): delete the destination
first when its identifier is truthy (line 133); fetch the raw source
metadata; send the move `PUT` whose body carries the source identifier
as `InternalName` and the destination parent/name; set the destination
path's terminal identifier and name from the response; `created` is
`dest_path.identifier is None` (line 166); folders additionally trigger
a children listing for the result snapshot (line 172).  The decoded
response record `resp` is supplied by the oracle. -/
def intra_move (shareId : String) (src dest : MvPath) (srcMeta : RawFileMeta)
    (resp : RespFile) : MoveOutcome :=
  let delEvents := if pyTruthy dest.identifier then [MEvent.deleteEntity dest.identifier] else []
  let body : MoveBody :=
    { internalName := src.identifier
      shareId := shareId
      parrentId := dest.parentId
      endOfFile := if src.isFolder then 0 else srcMeta.endOfFile
      publicName := dest.name
      creationTime := srcMeta.creationTime
      lastAccessTime := srcMeta.lastAccessTime
      lastWriteTime := srcMeta.lastWriteTime
      attributes := srcMeta.attributes }
  let folderEvents := if dest.isFolder then [MEvent.listChildren (some resp.internalName)] else []
  { events := delEvents ++
      [MEvent.fetchSrcMeta src.identifier, MEvent.movePut src.identifier body] ++ folderEvents
    result := resp
    destAfter := { dest with identifier := some resp.internalName, name := resp.publicName }
    created := dest.identifier.isNone }

/-- What `intra_copy` returns and does: its request trace, the decoded
entity record and the `created` flag. -/
structure CopyOutcome where
  events : List MEvent
  result : RespFile
  created : Bool
deriving DecidableEq, Repr

/-- Modelled from the spec: `WaterButlerPath` equality (defined in
waterbutler core, outside src/) compares the rendered path strings, so
for two terminal path objects under the same parent it holds exactly
when their names, parents and folder kinds agree — "the clone's
resulting name and parent already equal the requested destination". -/
def pathEq (p q : MvPath) : Bool :=
  p.name == q.name && p.parentId == q.parentId && p.isFolder == q.isFolder

/-- Embeds `intra_copy` (provider.py:177-207): when the destination
identifier is truthy, delete it and rebind the destination to
`dest_path.parent.child(dest_path.name)` (identifier `None`, file kind);
issue the clone `POST`; build `clone_result_path` from the response's
`PublicName`/`InternalName` under the destination parent; if it equals
the destination path, return the clone record with `created = True`,
otherwise delegate to `intra_move` from the clone result to the
destination and return that outcome. -/
def intra_copy (shareId destShareId : String) (src dest : MvPath)
    (cloneResp : RespFile) (cloneSrcMeta : RawFileMeta) (moveResp : RespFile) :
    CopyOutcome :=
  let delEvents := if pyTruthy dest.identifier then [MEvent.deleteEntity dest.identifier] else []
  let dest1 := if pyTruthy dest.identifier then
      { dest with identifier := none, isFolder := false } else dest
  let cloneEvent := MEvent.clonePost src.identifier dest1.parentId destShareId
  let cloneResultPath : MvPath :=
    { name := cloneResp.publicName
      identifier := some cloneResp.internalName
      parentId := dest1.parentId
      isFolder := false }
  if pathEq cloneResultPath dest1 then
    { events := delEvents ++ [cloneEvent], result := cloneResp, created := true }
  else
    let mv := intra_move shareId cloneResultPath dest1 cloneSrcMeta moveResp
    { events := delEvents ++ [cloneEvent] ++ mv.events
      result := mv.result
      created := mv.created }

/-- True exactly on move `PUT` events; used to count move calls. -/
def MEvent.isMovePut : MEvent → Bool
  | .movePut _ _ => true
  | _ => false

/-- Claim C2: in `intra_move`, a destination with a resolved identifier
is deleted before the move request (the delete is the first issued
request); with no resolved identifier no delete is issued; the move
`PUT` targets the source identifier and its body carries the source
identifier as `InternalName`, so when the server echoes that identifier
back the resulting entity and the updated destination path keep the
source's original identifier; and the returned `created` flag is true
exactly when the destination had no resolved identifier. -/
theorem intra_move_spec (shareId : String) (src dest : MvPath) (srcMeta : RawFileMeta)
    (resp : RespFile) (sid : String)
    (hsrc : src.identifier = some sid)
    (hdest : dest.identifier = none ∨
      ∃ s : String, dest.identifier = some s ∧ s.isEmpty = false) :
    (∀ (u : Option String) (b : MoveBody),
      MEvent.movePut u b ∈ (intra_move shareId src dest srcMeta resp).events →
      b.internalName = some sid ∧ u = some sid) ∧
    (∃ b : MoveBody,
      MEvent.movePut (some sid) b ∈ (intra_move shareId src dest srcMeta resp).events) ∧
    (dest.identifier ≠ none →
      ∃ tl : List MEvent, (intra_move shareId src dest srcMeta resp).events =
        MEvent.deleteEntity dest.identifier :: tl) ∧
    (dest.identifier = none →
      ∀ ident : Option String,
        MEvent.deleteEntity ident ∉ (intra_move shareId src dest srcMeta resp).events) ∧
    ((intra_move shareId src dest srcMeta resp).created = true ↔ dest.identifier = none) ∧
    (resp.internalName = sid →
      (intra_move shareId src dest srcMeta resp).result.internalName = sid ∧
      (intra_move shareId src dest srcMeta resp).destAfter.identifier = some sid) := by
  rcases hdest with hnone | ⟨s0, hs0, hs0e⟩
  · refine ⟨?_, ?_, ?_, ?_, ?_, ?_⟩
    · intro u b hmem
      cases hf : dest.isFolder <;>
        simp [intra_move, hnone, pyTruthy, hf] at hmem <;>
        exact ⟨by rw [hmem.2]; simpa using hsrc, by rw [hmem.1, hsrc]⟩
    · refine ⟨MoveBody.mk src.identifier shareId dest.parentId
        (if src.isFolder then 0 else srcMeta.endOfFile) dest.name
        srcMeta.creationTime srcMeta.lastAccessTime srcMeta.lastWriteTime
        srcMeta.attributes, ?_⟩
      cases hf : dest.isFolder <;>
        simp [intra_move, hnone, pyTruthy, hf, hsrc]
    · intro hne
      exact absurd hnone hne
    · intro _ ident
      cases hf : dest.isFolder <;>
        simp [intra_move, hnone, pyTruthy, hf]
    · simp [intra_move, hnone]
    · intro hecho
      simp [intra_move, hecho]
  · refine ⟨?_, ?_, ?_, ?_, ?_, ?_⟩
    · intro u b hmem
      cases hf : dest.isFolder <;>
        simp [intra_move, hs0, pyTruthy, hs0e, hf] at hmem <;>
        exact ⟨by rw [hmem.2]; simpa using hsrc, by rw [hmem.1, hsrc]⟩
    · refine ⟨MoveBody.mk src.identifier shareId dest.parentId
        (if src.isFolder then 0 else srcMeta.endOfFile) dest.name
        srcMeta.creationTime srcMeta.lastAccessTime srcMeta.lastWriteTime
        srcMeta.attributes, ?_⟩
      cases hf : dest.isFolder <;>
        simp [intra_move, hs0, pyTruthy, hs0e, hf, hsrc]
    · intro _
      refine ⟨[MEvent.fetchSrcMeta src.identifier,
        MEvent.movePut src.identifier (MoveBody.mk src.identifier shareId dest.parentId
          (if src.isFolder then 0 else srcMeta.endOfFile) dest.name
          srcMeta.creationTime srcMeta.lastAccessTime srcMeta.lastWriteTime
          srcMeta.attributes)] ++
        (if dest.isFolder then [MEvent.listChildren (some resp.internalName)] else []), ?_⟩
      simp [intra_move, hs0, pyTruthy, hs0e]
    · intro hnone
      rw [hs0] at hnone
      exact absurd hnone (by simp)
    · simp [intra_move, hs0]
    · intro hecho
      simp [intra_move, hecho]

/-- Concrete instantiation of `intra_move_spec`: moving onto an existing
destination deletes it first, and the moved entity keeps the source
identifier. -/
theorem intra_move_spec_witness :
    (∃ tl : List MEvent,
      (intra_move "sh" ⟨"s", some "sid", some "pp", false⟩
          ⟨"d", some "did", some "pp", false⟩
          ⟨5, "c", "a", "w", 128⟩ ⟨"sid", "d"⟩).events =
        MEvent.deleteEntity (some "did") :: tl) ∧
    (intra_move "sh" ⟨"s", some "sid", some "pp", false⟩
        ⟨"d", some "did", some "pp", false⟩
        ⟨5, "c", "a", "w", 128⟩ ⟨"sid", "d"⟩).result.internalName = "sid" := by
  have h := intra_move_spec "sh" ⟨"s", some "sid", some "pp", false⟩
    ⟨"d", some "did", some "pp", false⟩ ⟨5, "c", "a", "w", 128⟩ ⟨"sid", "d"⟩ "sid"
    (by decide) (Or.inr ⟨"did", by decide, by decide⟩)
  exact ⟨h.2.2.1 (by decide), (h.2.2.2.2.2 (by decide)).1⟩

/-- Claim C3: in `intra_copy`, when the clone lands with the requested
destination name (and parent), the copy returns the clone record with
`created = true` and issues no move call; otherwise it issues exactly
one move call — the `intra_move` re-homing the cloned entity into the
requested destination — and returns that move's outcome. -/
theorem intra_copy_spec (shareId destShareId : String) (src dest : MvPath)
    (cloneResp : RespFile) (cloneSrcMeta : RawFileMeta) (moveResp : RespFile)
    (hfile : dest.isFolder = false) :
    (cloneResp.publicName = dest.name →
      (intra_copy shareId destShareId src dest cloneResp cloneSrcMeta moveResp).created
        = true ∧
      (intra_copy shareId destShareId src dest cloneResp cloneSrcMeta moveResp).result
        = cloneResp ∧
      ((intra_copy shareId destShareId src dest cloneResp cloneSrcMeta
          moveResp).events.countP (fun ev => ev.isMovePut)) = 0) ∧
    (cloneResp.publicName ≠ dest.name →
      ((intra_copy shareId destShareId src dest cloneResp cloneSrcMeta
          moveResp).events.countP (fun ev => ev.isMovePut)) = 1 ∧
      (intra_copy shareId destShareId src dest cloneResp cloneSrcMeta moveResp).result
        = (intra_move shareId
            ⟨cloneResp.publicName, some cloneResp.internalName, dest.parentId, false⟩
            (if pyTruthy dest.identifier then
              { dest with identifier := none, isFolder := false } else dest)
            cloneSrcMeta moveResp).result ∧
      (intra_copy shareId destShareId src dest cloneResp cloneSrcMeta moveResp).created
        = (intra_move shareId
            ⟨cloneResp.publicName, some cloneResp.internalName, dest.parentId, false⟩
            (if pyTruthy dest.identifier then
              { dest with identifier := none, isFolder := false } else dest)
            cloneSrcMeta moveResp).created) := by
  constructor
  · intro hname
    cases hit : pyTruthy dest.identifier <;>
      simp [intra_copy, pathEq, hit, hname, hfile, MEvent.isMovePut]
  · intro hname
    have hpn : pyTruthy none = false := rfl
    cases hit : pyTruthy dest.identifier <;>
      simp [intra_copy, intra_move, pathEq, hit, hname, hfile, hpn,
        MEvent.isMovePut, List.countP_cons, List.countP_append]

/-- Concrete instantiation of `intra_copy_spec`: a clone landing with the
requested name returns `created = true` with no move call, and a clone
landing under a different name triggers exactly one move call. -/
theorem intra_copy_spec_witness :
    ((intra_copy "sh" "sh2" ⟨"s", some "sid", some "pp", false⟩
        ⟨"d", none, some "pp", false⟩ ⟨"cid", "d"⟩
        ⟨5, "c", "a", "w", 128⟩ ⟨"cid", "d"⟩).created = true ∧
     (intra_copy "sh" "sh2" ⟨"s", some "sid", some "pp", false⟩
        ⟨"d", none, some "pp", false⟩ ⟨"cid", "d"⟩
        ⟨5, "c", "a", "w", 128⟩ ⟨"cid", "d"⟩).events.countP
          (fun ev => ev.isMovePut) = 0) ∧
    ((intra_copy "sh" "sh2" ⟨"s", some "sid", some "pp", false⟩
        ⟨"d", none, some "pp", false⟩ ⟨"cid", "x"⟩
        ⟨5, "c", "a", "w", 128⟩ ⟨"cid", "d"⟩).events.countP
          (fun ev => ev.isMovePut) = 1) := by
  have h1 := intra_copy_spec "sh" "sh2" ⟨"s", some "sid", some "pp", false⟩
    ⟨"d", none, some "pp", false⟩ ⟨"cid", "d"⟩ ⟨5, "c", "a", "w", 128⟩
    ⟨"cid", "d"⟩ (by decide)
  have h2 := intra_copy_spec "sh" "sh2" ⟨"s", some "sid", some "pp", false⟩
    ⟨"d", none, some "pp", false⟩ ⟨"cid", "x"⟩ ⟨5, "c", "a", "w", 128⟩
    ⟨"cid", "d"⟩ (by decide)
  refine ⟨⟨(h1.1 (by decide)).1, (h1.1 (by decide)).2.2⟩, (h2.2 (by decide)).1⟩

/-! ## Upload (`upload` provider.py:234-247, `_upload_request`
provider.py:249-286) -/

/-- The requests `upload` issues, in order: the existence precheck
(`self.exists(path)`, itself a metadata lookup), the prior-metadata
lookup `_upload_request` makes when updating (provider.py:252), the
create-or-update mutation call (provider.py:276-283), and the binary
chunk writes of `_upload_file`. -/
inductive UEvent where
  | existsCheck
  | priorMetadataGet
  | createOrUpdate (created : Bool) (internalName : Option String)
      (parentId : Option String) (size : Nat) (name : String)
  | chunk (start stop : Nat)
deriving DecidableEq, Repr

/-- The decoded create-or-update response: the upload URL
(`data['Data']['Url']`, used when size > 0) and the embedded entity
record. -/
structure UploadReqResp where
  url : String
  rf : RespFile
deriving DecidableEq, Repr

/-- Embeds `upload` (provider.py:234-247) composed with
`_upload_request` (249-286) and `_upload_file` (288-310): `created` is
the negation of the existence precheck; updating first fetches the
prior metadata; the create-or-update body carries the declared stream
size and the path identifier (empty `InternalName` when creating); when
`size > 0` the chunk requests of `uploadFileChunks` follow and the
entity is decoded from the final chunk response, otherwise the entity
is decoded from the create-or-update response itself.  The oracle
supplies the existence answer and both decoded responses. -/
def upload (C size : Nat) (pident parentId : Option String) (name : String)
    (exists0 : Bool) (reqResp : UploadReqResp) (chunkResp : RespFile) :
    List UEvent × RespFile × Bool :=
  let created := !exists0
  let reqEvents : List UEvent :=
    UEvent.existsCheck ::
      ((if created then [] else [UEvent.priorMetadataGet]) ++
        [UEvent.createOrUpdate created (if created then some "" else pident)
          parentId size name])
  if size > 0 then
    (reqEvents ++ (uploadFileChunks C size).map (fun r => UEvent.chunk r.1 r.2),
      chunkResp, created)
  else
    (reqEvents, reqResp.rf, created)

/-- True exactly on create-or-update mutation calls. -/
def UEvent.isCreateOrUpdate : UEvent → Bool
  | .createOrUpdate _ _ _ _ _ => true
  | _ => false

/-- True exactly on binary chunk writes. -/
def UEvent.isChunk : UEvent → Bool
  | .chunk _ _ => true
  | _ => false

/-- Claim C6: an upload whose stream has declared size 0 issues exactly
one create-or-update metadata call and zero binary chunk calls, and
returns the entity decoded from that single metadata response. -/
theorem upload_zero_size (C : Nat) (pident parentId : Option String) (name : String)
    (exists0 : Bool) (reqResp : UploadReqResp) (chunkResp : RespFile) :
    ((upload C 0 pident parentId name exists0 reqResp chunkResp).1.countP
      (fun ev => ev.isCreateOrUpdate)) = 1 ∧
    ((upload C 0 pident parentId name exists0 reqResp chunkResp).1.countP
      (fun ev => ev.isChunk)) = 0 ∧
    (upload C 0 pident parentId name exists0 reqResp chunkResp).2.1 = reqResp.rf := by
  cases exists0 <;>
    simp [upload, UEvent.isCreateOrUpdate, UEvent.isChunk, List.countP_cons,
      List.countP_append]

/-! ## Delete (`delete` provider.py:312-326, `_delete_folder` 328-338,
`_delete_virtual_file` 340-358) -/

/-- The remote tree a recursive folder delete walks: each node carries
its entity identifier and the rendered path string of its
`WaterButlerPath`; folder nodes carry the children that
`_folder_metadata` lists. -/
inductive VTree where
  | file (ident : String) (pth : String)
  | folder (ident : String) (pth : String) (children : List VTree)

/-- Embeds `_delete_virtual_file` (provider.py:340-358) with the remote
status supplied by the oracle `st`: the `DELETE` request on the
identifier is always issued (the trace is the list of identifiers sent,
in order); a status outside the accepted set `{200, 400, 404}` raises
the delete error, a 400 or 404 raises not-found carrying the path, and
a 200 succeeds. -/
def deleteVirtualFile (st : String → Nat) (ident pth : String) :
    List String × Except RFError Unit :=
  ([ident],
    if st ident = 200 ∨ st ident = 400 ∨ st ident = 404 then
      if st ident = 400 ∨ st ident = 404 then .error (.notFound pth)
      else .ok ()
    else .error (.deleteError pth (st ident)))

mutual
/-- Embeds the per-child dispatch of `_delete_folder`
(provider.py:330-334): a file child goes through
`_delete_virtual_file`, a folder child recurses through
`_delete_folder`, which processes all its children first and then
deletes the folder itself (line 336).  Children-listing requests are
not traced; the trace records the `DELETE` requests in order. -/
def deleteEntityT (st : String → Nat) : VTree → List String × Except RFError Unit
  | .file ident pth => deleteVirtualFile st ident pth
  | .folder ident pth cs =>
    match deleteListT st cs with
    | (tr, .error er) => (tr, .error er)
    | (tr, .ok _) =>
      (tr ++ (deleteVirtualFile st ident pth).1, (deleteVirtualFile st ident pth).2)

/-- The `for item in await self._folder_metadata(path)` loop of
`_delete_folder` (provider.py:330-334): children are processed strictly
in listing order, stopping at the first failure. -/
def deleteListT (st : String → Nat) : List VTree → List String × Except RFError Unit
  | [] => ([], .ok ())
  | c :: rest =>
    match deleteEntityT st c with
    | (tr, .error er) => (tr, .error er)
    | (tr, .ok _) =>
      (tr ++ (deleteListT st rest).1, (deleteListT st rest).2)
end

mutual
theorem deleteEntityT_ok (st : String → Nat) (hok : ∀ s, st s = 200) :
    ∀ t : VTree, (deleteEntityT st t).2 = .ok ()
  | .file ident pth => by
    simp [deleteEntityT, deleteVirtualFile, hok]
  | .folder ident pth cs => by
    have hl : (deleteListT st cs).2 = .ok () := deleteListT_ok st hok cs
    rw [deleteEntityT]
    cases hdl : deleteListT st cs with
    | mk tr res =>
      rw [hdl] at hl
      simp at hl
      subst hl
      simp [deleteVirtualFile, hok]

theorem deleteListT_ok (st : String → Nat) (hok : ∀ s, st s = 200) :
    ∀ l : List VTree, (deleteListT st l).2 = .ok ()
  | [] => by simp [deleteListT]
  | c :: rest => by
    have hc : (deleteEntityT st c).2 = .ok () := deleteEntityT_ok st hok c
    have hr : (deleteListT st rest).2 = .ok () := deleteListT_ok st hok rest
    rw [deleteListT]
    cases hdc : deleteEntityT st c with
    | mk tr res =>
      rw [hdc] at hc
      simp at hc
      subst hc
      simp [hr]
end

theorem deleteListT_trace (st : String → Nat) (hok : ∀ s, st s = 200) :
    ∀ l : List VTree,
      (deleteListT st l).1 = (l.map (fun c => (deleteEntityT st c).1)).flatten := by
  intro l
  induction l with
  | nil => simp [deleteListT]
  | cons c rest ih =>
    have hc : (deleteEntityT st c).2 = .ok () := deleteEntityT_ok st hok c
    rw [deleteListT]
    cases hdc : deleteEntityT st c with
    | mk tr res =>
      rw [hdc] at hc
      simp at hc
      subst hc
      simp [ih, hdc]

/-- Claim C7: recursive folder delete is bottom-up.  On a successful
run, the folder's trace of `DELETE` requests is the concatenation of
its children's full recursive traces, in listing order, followed by the
folder's own delete; in particular every child's entire delete trace
precedes the folder's own delete request. -/
theorem delete_folder_bottom_up (st : String → Nat) (hok : ∀ s, st s = 200)
    (ident pth : String) (cs : List VTree) :
    ((deleteEntityT st (VTree.folder ident pth cs)).1 =
      (cs.map (fun c => (deleteEntityT st c).1)).flatten ++ [ident]) ∧
    (∀ c ∈ cs, ∃ pre post : List String,
      (deleteEntityT st (VTree.folder ident pth cs)).1 =
        pre ++ ((deleteEntityT st c).1 ++ (post ++ [ident]))) := by
  have htr : (deleteEntityT st (VTree.folder ident pth cs)).1 =
      (cs.map (fun c => (deleteEntityT st c).1)).flatten ++ [ident] := by
    have hl : (deleteListT st cs).2 = .ok () := deleteListT_ok st hok cs
    have hlt := deleteListT_trace st hok cs
    rw [deleteEntityT]
    cases hdl : deleteListT st cs with
    | mk tr res =>
      rw [hdl] at hl hlt
      simp at hl hlt
      subst hl
      simp [deleteVirtualFile, hlt]
  refine ⟨htr, ?_⟩
  intro c hc
  obtain ⟨l1, l2, hsplit⟩ := List.append_of_mem hc
  refine ⟨(l1.map (fun c => (deleteEntityT st c).1)).flatten,
    (l2.map (fun c => (deleteEntityT st c).1)).flatten, ?_⟩
  rw [htr, hsplit]
  simp

/-- Concrete instantiation of `delete_folder_bottom_up`: deleting a
folder containing one file and one nested empty folder issues
delete(file), delete(nested folder), delete(outer folder), in that
order. -/
theorem delete_folder_bottom_up_witness :
    (deleteEntityT (fun _ => 200)
      (VTree.folder "o" "/o/" [VTree.file "f" "/o/f", VTree.folder "n" "/o/n/" []])).1 =
      ["f", "n", "o"] := by
  have h := delete_folder_bottom_up (fun _ => 200) (fun _ => rfl) "o" "/o/"
    [VTree.file "f" "/o/f", VTree.folder "n" "/o/n/" []]
  rw [h.1]
  simp [deleteEntityT, deleteListT, deleteVirtualFile]

/-- Claim C8: `_delete_virtual_file` maps a remote 400 or 404 response
to a not-found error carrying the path, any status outside the accepted
set `{200, 400, 404}` to the delete error kind, and succeeds on 200. -/
theorem delete_status_mapping (st : String → Nat) (ident pth : String) :
    ((st ident = 400 ∨ st ident = 404) →
      (deleteVirtualFile st ident pth).2 = .error (.notFound pth)) ∧
    (st ident ≠ 200 ∧ st ident ≠ 400 ∧ st ident ≠ 404 →
      (deleteVirtualFile st ident pth).2 = .error (.deleteError pth (st ident))) ∧
    (st ident = 200 → (deleteVirtualFile st ident pth).2 = .ok ()) := by
  refine ⟨?_, ?_, ?_⟩
  · intro h
    rcases h with h | h <;> simp [deleteVirtualFile, h]
  · intro h
    obtain ⟨h2, h4, h44⟩ := h
    simp [deleteVirtualFile, h2, h4, h44]
  · intro h
    simp [deleteVirtualFile, h]

/-- Concrete instantiation of `delete_status_mapping` at statuses 404
and 500. -/
theorem delete_status_mapping_witness :
    (deleteVirtualFile (fun _ => 404) "i" "/p").2 = .error (.notFound "/p") ∧
    (deleteVirtualFile (fun _ => 500) "i" "/p").2 = .error (.deleteError "/p" 500) :=
  ⟨(delete_status_mapping (fun _ => 404) "i" "/p").1 (Or.inr rfl),
   (delete_status_mapping (fun _ => 500) "i" "/p").2.1 ⟨by decide, by decide, by decide⟩⟩

/-- The slice of a `WaterButlerPath` that `delete` reads: terminal
identifier, rendered path string, whether the path is the share root,
and whether it denotes a folder. -/
structure DelPath where
  identifier : Option String
  pth : String
  isRoot : Bool
  isFolder : Bool
deriving DecidableEq, Repr

/-- Embeds `delete` (provider.py:312-326): a falsy identifier raises
not-found before anything is sent; then the root path raises a delete
error with code 400 before anything is sent; otherwise folders go
through `_delete_folder` over their children listing and files through
`_delete_virtual_file`. -/
def deleteOp (st : String → Nat) (p : DelPath) (children : List VTree) :
    List String × Except RFError Unit :=
  if !pyTruthy p.identifier then ([], .error (.notFound p.pth))
  else if p.isRoot then ([], .error (.deleteError "root cannot be deleted" 400))
  else if p.isFolder then
    match deleteListT st children with
    | (tr, .error er) => (tr, .error er)
    | (tr, .ok _) =>
      (tr ++ (deleteVirtualFile st (p.identifier.getD "") p.pth).1,
        (deleteVirtualFile st (p.identifier.getD "") p.pth).2)
  else deleteVirtualFile st (p.identifier.getD "") p.pth

/-- Claim C9: `delete` refuses an unresolved path with a not-found error
and the share root with a delete error of code 400, in both cases with
an empty request trace — no delete request is ever sent for the root or
for an unresolved path. -/
theorem delete_guards (st : String → Nat) (p : DelPath) (children : List VTree) :
    (pyTruthy p.identifier = false →
      deleteOp st p children = ([], .error (.notFound p.pth))) ∧
    (pyTruthy p.identifier = true → p.isRoot = true →
      deleteOp st p children =
        ([], .error (.deleteError "root cannot be deleted" 400))) := by
  constructor
  · intro h
    simp [deleteOp, h]
  · intro h hr
    simp [deleteOp, h, hr]

/-- Concrete instantiation of `delete_guards`: an unresolved path and
the root path are both refused without any request. -/
theorem delete_guards_witness :
    deleteOp (fun _ => 200) ⟨none, "/x", false, false⟩ [] =
      ([], .error (.notFound "/x")) ∧
    deleteOp (fun _ => 200) ⟨some "r", "/", true, true⟩ [] =
      ([], .error (.deleteError "root cannot be deleted" 400)) :=
  ⟨(delete_guards (fun _ => 200) ⟨none, "/x", false, false⟩ []).1 rfl,
   (delete_guards (fun _ => 200) ⟨some "r", "/", true, true⟩ []).2 rfl rfl⟩

/-! ## Download (`download` provider.py:209-232, `EmptyResponse`
provider.py:32-39) -/

/-- The slice of a `WaterButlerPath` that `download` reads. -/
structure DPath where
  identifier : Option String
  pth : String
  isDir : Bool
deriving DecidableEq, Repr

/-- The metadata fields `download` consults: the file size and the
`upload_name` used to build the content URL. -/
structure FileMetaLite where
  size : Nat
  uploadName : String
deriving DecidableEq, Repr

/-- The requests `download` issues: the metadata lookup and the content
`GET` on the filecache endpoint. -/
inductive DEvent where
  | metadataFetch (ident : String)
  | contentGet (uploadName : String)
deriving DecidableEq, Repr

/-- A response stream as the caller sees it: HTTP status and content
length. -/
structure StreamResponse where
  status : Nat
  contentLength : Nat
deriving DecidableEq, Repr

/-- Embeds `EmptyResponse` (provider.py:32-39): status 200, header
`Content-Length: 0`, empty content stream. -/
def emptyResponse : StreamResponse := ⟨200, 0⟩

/-- Embeds `download` (provider.py:209-232): a `None` identifier raises
a download error with code 404; a folder path raises a download error;
otherwise the metadata is fetched and, when the size is 0, the empty
response stream is returned with no content request; when the size is
positive the content endpoint is contacted (statuses 200/206 accepted).
The oracle supplies the metadata and the content response. -/
def download (p : DPath) (meta : FileMetaLite) (resp : StreamResponse) :
    List DEvent × Except RFError StreamResponse :=
  match p.identifier with
  | none => ([], .error (.downloadError p.pth 404))
  | some ident =>
    if p.isDir then ([], .error (.downloadError "Path must be a file" 404))
    else if meta.size = 0 then
      ([DEvent.metadataFetch ident], .ok emptyResponse)
    else
      ([DEvent.metadataFetch ident, DEvent.contentGet meta.uploadName],
        if resp.status = 200 ∨ resp.status = 206 then .ok resp
        else .error (.downloadError p.pth resp.status))

/-- Claim C10: for a resolved file path whose metadata reports size 0,
`download` returns the empty response stream (status 200, zero content
length) and issues no content request; the content endpoint is
contacted exactly when the size is positive. -/
theorem download_empty (p : DPath) (meta : FileMetaLite) (resp : StreamResponse)
    (ident : String) (hid : p.identifier = some ident) (hdir : p.isDir = false) :
    (meta.size = 0 →
      download p meta resp = ([DEvent.metadataFetch ident], .ok emptyResponse) ∧
      emptyResponse.status = 200 ∧ emptyResponse.contentLength = 0) ∧
    (0 < meta.size →
      (download p meta resp).1 =
        [DEvent.metadataFetch ident, DEvent.contentGet meta.uploadName]) := by
  constructor
  · intro hz
    refine ⟨?_, rfl, rfl⟩
    simp [download, hid, hdir, hz]
  · intro hpos
    have hnz : meta.size ≠ 0 := by omega
    simp [download, hid, hdir, hnz]

/-- Concrete instantiation of `download_empty` at sizes 0 and 3. -/
theorem download_empty_witness :
    download ⟨some "i", "/f", false⟩ ⟨0, "un"⟩ ⟨200, 5⟩ =
      ([DEvent.metadataFetch "i"], .ok emptyResponse) ∧
    (download ⟨some "i", "/f", false⟩ ⟨3, "un"⟩ ⟨200, 5⟩).1 =
      [DEvent.metadataFetch "i", DEvent.contentGet "un"] :=
  ⟨((download_empty ⟨some "i", "/f", false⟩ ⟨0, "un"⟩ ⟨200, 5⟩ "i" rfl rfl).1 rfl).1,
   (download_empty ⟨some "i", "/f", false⟩ ⟨3, "un"⟩ ⟨200, 5⟩ "i" rfl rfl).2 (by decide)⟩

end RushFiles
